import Mathlib

/-! A verification development for the DuReader preprocessing tool
(`dureader_preprocess.py`): the token-overlap metric engine, the
paragraph relevance selector (`find_best_question_match`), the
fake-answer miner (`find_fake_answer`) and the orchestrator's
result-drain loop, embedded shallowly as executable Lean functions.
Python float arithmetic on the metric values is modelled exactly by
rationals; a Python exception escaping a function is modelled by the
function returning `none`. -/

namespace DuReaderPreprocess

/-- Tokens are opaque comparable units produced by an upstream segmenter,
modelled as strings.  Segmented tokens contain no whitespace, so the
`str.split()` fallback of `precision_recall_f1` applied to a single
token yields exactly the singleton of that token. -/
abbrev Token := String

/-- Lines 42-43 of the source: `sum((Counter(prediction) & Counter(ground_truth)).values())`,
the per-token minimum of the two occurrence counts summed over all tokens,
i.e. the cardinality of the multiset intersection. -/
def num_same (prediction ground_truth : List Token) : Nat :=
  Multiset.card ((↑prediction : Multiset Token) ∩ (↑ground_truth : Multiset Token))

/-- Lines 23-49 of the source: precision, recall and F1 of a prediction
against one reference, both treated as token multisets.  Returns
`(0, 0, 0)` when the multiset intersection is empty; otherwise
`p = num_same/|prediction|`, `r = num_same/|ground_truth|`,
`f1 = 2*p*r/(p+r)`. -/
def precision_recall_f1 (prediction ground_truth : List Token) : ℚ × ℚ × ℚ :=
  let ns := num_same prediction ground_truth
  if ns = 0 then (0, 0, 0)
  else
    let p : ℚ := (ns : ℚ) / (prediction.length : ℚ)
    let r : ℚ := (ns : ℚ) / (ground_truth.length : ℚ)
    (p, r, 2 * p * r / (p + r))

/-- Lines 52-63 of the source: the recall component of
`precision_recall_f1`.  (The source names this `recall`; that word is a
command keyword in this Lean environment, hence the prime.) -/
def recall' (prediction ground_truth : List Token) : ℚ :=
  (precision_recall_f1 prediction ground_truth).2.1

/-- Lines 66-77 of the source: the F1 component of `precision_recall_f1`. -/
def f1_score (prediction ground_truth : List Token) : ℚ :=
  (precision_recall_f1 prediction ground_truth).2.2

/-- Lines 80-96 of the source: the maximum of `metric_fn prediction gt`
over all references `gt`.  The Python `max` faults on an empty list and
every call site guards against that; since every metric value is
nonnegative, seeding the fold with `0` agrees with `max` at every
guarded call site. -/
def metric_max_over_ground_truths (metric_fn : List Token → List Token → ℚ)
    (prediction : List Token) (ground_truths : List (List Token)) : ℚ :=
  ((ground_truths.map fun ground_truth => metric_fn prediction ground_truth).foldl max 0)

/-- The running-best loop of `find_best_question_match` (lines 112-127):
state `(most_related_para, max_related_score, most_related_para_len)`
initialised to `(-1, 0, 0)`; `p_idx` is the index of the current
paragraph.  Each single question token `t` is a reference `[t]`
(Python passes the token string, which `precision_recall_f1` splits). -/
def find_best_question_match_loop (question : List Token) :
    Nat → List (List Token) → Int × ℚ × Nat → Int × ℚ × Nat
  | _, [], st => st
  | p_idx, para_tokens :: rest, st =>
    let related_score : ℚ :=
      if question.length > 0 then
        metric_max_over_ground_truths recall' para_tokens (question.map fun t => [t])
      else 0
    let st' :=
      if related_score > st.2.1 ∨ (related_score = st.2.1 ∧ para_tokens.length < st.2.2) then
        ((p_idx : Int), related_score, para_tokens.length)
      else st
    find_best_question_match_loop question (p_idx + 1) rest st'

/-- Lines 99-132 of the source: pick, for one document, the paragraph
most related to the question; `-1` (no update ever happened) is coerced
to `0` on return. -/
def find_best_question_match (segmented_paragraphs : List (List Token))
    (question : List Token) : Int :=
  let st := find_best_question_match_loop question 0 segmented_paragraphs (-1, 0, 0)
  if st.1 = -1 then 0 else st.1

/-- One document of a sample: already-segmented paragraphs, the editorial
`is_selected` flag, and the `most_related_para` annotation written by
`find_fake_answer` (phase A writes it unconditionally for every document). -/
structure Document where
  segmented_paragraphs : List (List Token)
  is_selected : Bool
  most_related_para : Int := -1
deriving DecidableEq

/-- One QA sample with its gold answers, documents and the four
sample-level annotation lists written by `find_fake_answer`. -/
structure Sample where
  segmented_answers : List (List Token)
  documents : List Document
  answer_docs : List Int := []
  answer_spans : List (List Int) := []
  fake_answers : List (Option String) := []
  match_scores : List ℚ := []
deriving DecidableEq

/-- The per-document paragraph-selection loop of `find_fake_answer`
(lines 147-162): state `(most_related_para, most_related_para_len, max_related_score)`
initialised to `(-1, 999999, 0)`; when `segmented_answers` is empty every
paragraph is skipped (`continue`). -/
def find_most_related_para_loop (segmented_answers : List (List Token)) :
    Nat → List (List Token) → Int × Nat × ℚ → Int × Nat × ℚ
  | _, [], st => st
  | p_idx, para_tokens :: rest, st =>
    let st' :=
      if segmented_answers.length > 0 then
        let related_score := metric_max_over_ground_truths recall' para_tokens segmented_answers
        if related_score > st.2.2 ∨ (related_score = st.2.2 ∧ para_tokens.length < st.2.1) then
          ((p_idx : Int), para_tokens.length, related_score)
        else st
      else st
    find_most_related_para_loop segmented_answers (p_idx + 1) rest st'

/-- The index written into `doc['most_related_para']` by phase A of
`find_fake_answer` for one document. -/
def find_most_related_para (segmented_answers paragraphs : List (List Token)) : Int :=
  (find_most_related_para_loop segmented_answers 0 paragraphs (-1, 999999, 0)).1

/-- Phase A of `find_fake_answer` on one document (line 163): write the
winning paragraph index into `most_related_para`. -/
def annotate_doc (segmented_answers : List (List Token)) (doc : Document) : Document :=
  { doc with most_related_para :=
      find_most_related_para segmented_answers doc.segmented_paragraphs }

/-- Lines 180-181 of the source: an `is_selected` document whose
`most_related_para` is still `-1` has it coerced to `0` before span search. -/
def coerce_doc (doc : Document) : Document :=
  if doc.most_related_para = -1 then { doc with most_related_para := 0 } else doc

/-- Lines 173-176 of the source: the set union of all tokens occurring in
any gold answer. -/
def answer_tokens_set (segmented_answers : List (List Token)) : Finset Token :=
  segmented_answers.foldl (fun acc segmented_answer => acc ∪ segmented_answer.toFinset) ∅

/-- The sample-global running best of the span search (lines 170-172):
`best_match_score`, `best_match_d_idx`, `best_match_span`, `best_fake_answer`. -/
structure Best where
  best_match_score : ℚ
  best_match_d_idx : Int
  best_match_span : List Int
  best_fake_answer : Option String
deriving DecidableEq

/-- Initial running best: score `0`, document `-1`, span `[-1, -1]`,
fake answer `None`. -/
def initBest : Best := ⟨0, -1, [-1, -1], none⟩

/-- The inner span loop of `find_fake_answer` (lines 187-201):
`end_tidx` runs from `window.length - 1` down to `start_tidx`; the
counter argument is the number of remaining iterations, so a count of
`k + 1` means `end_tidx = start_tidx + k` and the candidate span
`window[start_tidx : end_tidx + 1]` has `k + 1` tokens.  A zero F1 score
breaks out of the loop; a score strictly above the running best replaces
it (recording the joined span as the fake answer). -/
def spanEndLoop (segmented_answers : List (List Token)) (window : List Token)
    (d_idx start_tidx : Nat) : Nat → Best → Best
  | 0, best => best
  | k + 1, best =>
    let span_tokens := (window.drop start_tidx).take (k + 1)
    let match_score : ℚ :=
      if segmented_answers.length > 0 then
        metric_max_over_ground_truths f1_score span_tokens segmented_answers
      else 0
    if match_score = 0 then best
    else if match_score > best.best_match_score then
      spanEndLoop segmented_answers window d_idx start_tidx k
        ⟨match_score, (d_idx : Int), [(start_tidx : Int), ((start_tidx + k : Nat) : Int)],
         some (String.join span_tokens)⟩
    else spanEndLoop segmented_answers window d_idx start_tidx k best

/-- The outer span loop of `find_fake_answer` (lines 184-186): scan the
window tokens left to right; a start position whose token does not occur
in any gold answer is skipped. -/
def spanStartLoop (segmented_answers : List (List Token)) (ans_tokens : Finset Token)
    (window : List Token) (d_idx : Nat) : Nat → List Token → Best → Best
  | _, [], best => best
  | start_tidx, token :: rest, best =>
    let best' :=
      if token ∈ ans_tokens then
        spanEndLoop segmented_answers window d_idx start_tidx
          (window.length - start_tidx) best
      else best
    spanStartLoop segmented_answers ans_tokens window d_idx (start_tidx + 1) rest best'

/-- Phase B document loop of `find_fake_answer` (lines 177-201):
documents that are not `is_selected` are skipped; for a selected
document the `-1` index is coerced to `0`, the winning paragraph is
fetched (an out-of-range index raises, modelled by `none`), capped to
its first 1000 tokens, and scanned for the best span.  The coerced
document replaces the original (the Python code mutates it in place). -/
def phaseBLoop (segmented_answers : List (List Token)) (ans_tokens : Finset Token) :
    Nat → List Document → List Document × Best → Option (List Document × Best)
  | _, [], st => some st
  | d_idx, doc :: rest, (docs_acc, best) =>
    if doc.is_selected then
      let doc' := coerce_doc doc
      match doc'.segmented_paragraphs.get? doc'.most_related_para.toNat with
      | none => none
      | some para =>
        let window := para.take 1000
        let best' := spanStartLoop segmented_answers ans_tokens window d_idx 0 window best
        phaseBLoop segmented_answers ans_tokens (d_idx + 1) rest (docs_acc ++ [doc'], best')
    else phaseBLoop segmented_answers ans_tokens (d_idx + 1) rest (docs_acc ++ [doc], best)

/-- Lines 135-208 of the source: annotate every document with its most
related paragraph (phase A), then search the selected documents for the
single best answer span (phase B).  The four sample-level lists are
reset to `[]` and receive one element each exactly when a span with
positive score was found. -/
def find_fake_answer (sample : Sample) : Option Sample :=
  let documents := sample.documents.map (annotate_doc sample.segmented_answers)
  let ans_tokens := answer_tokens_set sample.segmented_answers
  match phaseBLoop sample.segmented_answers ans_tokens 0 documents ([], initBest) with
  | none => none
  | some (documents', best) =>
    if best.best_match_score > 0 then
      some { sample with
        documents := documents'
        answer_docs := [best.best_match_d_idx]
        answer_spans := [best.best_match_span]
        fake_answers := [best.best_fake_answer]
        match_scores := [best.best_match_score] }
    else
      some { sample with
        documents := documents'
        answer_docs := []
        answer_spans := []
        fake_answers := []
        match_scores := [] }

/-- The orchestrator's result-drain loop (lines 256-258 of `main`),
applied to the worker results in completion order: an `ok` result is
serialized and written to the output; on an `error` result the
re-raised worker exception escapes the loop, so no later completion is
processed.  The loop body contains no handler and no diagnostic write
(the `tqdm.write` diagnostics happen only in the load loop, for JSON
decode failures), so the middle component — diagnostics emitted by this
loop — is always empty.  Returns (written outputs, diagnostics, fatal
error if any). -/
def drainLoop : List (Except String Sample) → List Sample × List String × Option String
  | [] => ([], [], none)
  | Except.ok sample :: rest =>
    match drainLoop rest with
    | (outs, diags, fatal) => (sample :: outs, diags, fatal)
  | Except.error e :: _ => ([], [], some e)

/-! Basic facts about the metric engine. -/

theorem num_same_comm (A B : List Token) : num_same A B = num_same B A := by
  simp [num_same, Multiset.inter_comm]

theorem num_same_le_length_left (A B : List Token) : num_same A B ≤ A.length := by
  have h := Multiset.card_le_card (Multiset.inter_le_left (s := (↑A : Multiset Token)) (t := ↑B))
  simpa [num_same] using h

theorem num_same_le_length_right (A B : List Token) : num_same A B ≤ B.length := by
  have h := Multiset.card_le_card (Multiset.inter_le_right (s := (↑A : Multiset Token)) (t := ↑B))
  simpa [num_same] using h

theorem num_same_self (A : List Token) : num_same A A = A.length := by
  have h : (↑A ∩ ↑A : Multiset Token) = ↑A :=
    le_antisymm (Multiset.inter_le_left _ _) (Multiset.le_inter le_rfl le_rfl)
  simp [num_same, h]

theorem num_same_eq_zero_iff (A B : List Token) :
    num_same A B = 0 ↔ (↑A ∩ ↑B : Multiset Token) = 0 := by
  simp [num_same, Multiset.card_eq_zero]

theorem length_pos_of_num_same_ne_left {A B : List Token} (h : num_same A B ≠ 0) :
    0 < A.length :=
  lt_of_lt_of_le (Nat.pos_of_ne_zero h) (num_same_le_length_left A B)

theorem length_pos_of_num_same_ne_right {A B : List Token} (h : num_same A B ≠ 0) :
    0 < B.length :=
  lt_of_lt_of_le (Nat.pos_of_ne_zero h) (num_same_le_length_right A B)

theorem precision_recall_f1_of_zero {A B : List Token} (h : num_same A B = 0) :
    precision_recall_f1 A B = (0, 0, 0) := by
  simp [precision_recall_f1, h]

theorem precision_recall_f1_of_ne {A B : List Token} (h : num_same A B ≠ 0) :
    precision_recall_f1 A B =
      ((num_same A B : ℚ) / (A.length : ℚ),
       (num_same A B : ℚ) / (B.length : ℚ),
       2 * ((num_same A B : ℚ) / (A.length : ℚ)) * ((num_same A B : ℚ) / (B.length : ℚ)) /
         ((num_same A B : ℚ) / (A.length : ℚ) + (num_same A B : ℚ) / (B.length : ℚ))) := by
  simp [precision_recall_f1, h]

theorem f1_score_pos {A B : List Token} (h : num_same A B ≠ 0) :
    0 < f1_score A B := by
  have hA : (0 : ℚ) < (A.length : ℚ) := by
    exact_mod_cast length_pos_of_num_same_ne_left h
  have hB : (0 : ℚ) < (B.length : ℚ) := by
    exact_mod_cast length_pos_of_num_same_ne_right h
  have hns : (0 : ℚ) < (num_same A B : ℚ) := by
    exact_mod_cast Nat.pos_of_ne_zero h
  have hp : (0 : ℚ) < (num_same A B : ℚ) / (A.length : ℚ) := div_pos hns hA
  have hr : (0 : ℚ) < (num_same A B : ℚ) / (B.length : ℚ) := div_pos hns hB
  rw [f1_score, precision_recall_f1_of_ne h]
  exact div_pos (by positivity) (add_pos hp hr)

theorem f1_score_of_zero {A B : List Token} (h : num_same A B = 0) : f1_score A B = 0 := by
  rw [f1_score, precision_recall_f1_of_zero h]

theorem f1_score_nonneg (A B : List Token) : 0 ≤ f1_score A B := by
  by_cases h : num_same A B = 0
  · rw [f1_score_of_zero h]
  · exact (f1_score_pos h).le

theorem f1_score_le_one (A B : List Token) : f1_score A B ≤ 1 := by
  by_cases h : num_same A B = 0
  · rw [f1_score_of_zero h]; norm_num
  · have hA : (0 : ℚ) < (A.length : ℚ) := by
      exact_mod_cast length_pos_of_num_same_ne_left h
    have hB : (0 : ℚ) < (B.length : ℚ) := by
      exact_mod_cast length_pos_of_num_same_ne_right h
    have hns : (0 : ℚ) < (num_same A B : ℚ) := by
      exact_mod_cast Nat.pos_of_ne_zero h
    have hp : (0 : ℚ) < (num_same A B : ℚ) / (A.length : ℚ) := div_pos hns hA
    have hr : (0 : ℚ) < (num_same A B : ℚ) / (B.length : ℚ) := div_pos hns hB
    have hp1 : (num_same A B : ℚ) / (A.length : ℚ) ≤ 1 := by
      rw [div_le_one hA]
      exact_mod_cast num_same_le_length_left A B
    have hr1 : (num_same A B : ℚ) / (B.length : ℚ) ≤ 1 := by
      rw [div_le_one hB]
      exact_mod_cast num_same_le_length_right A B
    rw [f1_score, precision_recall_f1_of_ne h]
    rw [div_le_one (add_pos hp hr)]
    nlinarith [mul_nonneg (sub_nonneg.mpr hp1) hr.le, mul_nonneg (sub_nonneg.mpr hr1) hp.le]

theorem f1_score_self {A : List Token} (h : A ≠ []) : f1_score A A = 1 := by
  have hns : num_same A A ≠ 0 := by
    rw [num_same_self]
    exact fun hl => h (List.length_eq_zero.mp hl)
  have hA : (0 : ℚ) < (A.length : ℚ) := by
    exact_mod_cast length_pos_of_num_same_ne_left hns
  rw [f1_score, precision_recall_f1_of_ne hns, num_same_self]
  rw [div_self hA.ne']
  norm_num

theorem recall_nonneg (A B : List Token) : 0 ≤ recall' A B := by
  by_cases h : num_same A B = 0
  · rw [recall', precision_recall_f1_of_zero h]
  · have hns : (0 : ℚ) ≤ (num_same A B : ℚ) := by positivity
    have hB : (0 : ℚ) ≤ (B.length : ℚ) := by positivity
    rw [recall', precision_recall_f1_of_ne h]
    exact div_nonneg hns hB

/-! Facts about `List.foldl max`, the model of Python `max` over a list. -/

theorem foldl_max_init_le (l : List ℚ) (a : ℚ) : a ≤ l.foldl max a := by
  induction l generalizing a with
  | nil => exact le_refl a
  | cons x xs ih => exact le_trans (le_max_left a x) (ih (max a x))

theorem le_foldl_max_of_mem {x : ℚ} {l : List ℚ} (a : ℚ) (hx : x ∈ l) :
    x ≤ l.foldl max a := by
  induction l generalizing a with
  | nil => cases hx
  | cons y ys ih =>
    rcases List.mem_cons.mp hx with h | h
    · subst h
      exact le_trans (le_max_right a x) (foldl_max_init_le ys (max a x))
    · exact ih (max a y) h

theorem foldl_max_le {l : List ℚ} {b : ℚ} (a : ℚ) (ha : a ≤ b) (h : ∀ x ∈ l, x ≤ b) :
    l.foldl max a ≤ b := by
  induction l generalizing a with
  | nil => exact ha
  | cons y ys ih =>
    exact ih (max a y) (max_le ha (h y (List.mem_cons_self y ys)))
      fun x hx => h x (List.mem_cons_of_mem y hx)

theorem metric_max_nonneg (metric_fn : List Token → List Token → ℚ)
    (prediction : List Token) (ground_truths : List (List Token)) :
    0 ≤ metric_max_over_ground_truths metric_fn prediction ground_truths :=
  foldl_max_init_le _ 0

theorem le_metric_max {metric_fn : List Token → List Token → ℚ}
    {prediction gt : List Token} {ground_truths : List (List Token)}
    (hgt : gt ∈ ground_truths) :
    metric_fn prediction gt ≤ metric_max_over_ground_truths metric_fn prediction ground_truths :=
  le_foldl_max_of_mem 0 (List.mem_map_of_mem _ hgt)

theorem metric_max_f1_le_one (prediction : List Token) (ground_truths : List (List Token)) :
    metric_max_over_ground_truths f1_score prediction ground_truths ≤ 1 := by
  refine foldl_max_le 0 (by norm_num) ?_
  intro x hx
  rcases List.mem_map.mp hx with ⟨gt, _, rfl⟩
  exact f1_score_le_one prediction gt

theorem metric_max_f1_eq_one {prediction : List Token} {ground_truths : List (List Token)}
    (hmem : prediction ∈ ground_truths) (hne : prediction ≠ []) :
    metric_max_over_ground_truths f1_score prediction ground_truths = 1 := by
  have h1 : f1_score prediction prediction ≤
      metric_max_over_ground_truths f1_score prediction ground_truths :=
    le_metric_max hmem
  rw [f1_score_self hne] at h1
  exact le_antisymm (metric_max_f1_le_one prediction ground_truths) h1

/-! Facts about the phase-A paragraph-selection loop of `find_fake_answer`. -/

theorem fmrp_loop_ne_neg_one (segmented_answers : List (List Token))
    (rest : List (List Token)) :
    ∀ (p_idx : Nat) (st : Int × Nat × ℚ), st.1 ≠ -1 →
      (find_most_related_para_loop segmented_answers p_idx rest st).1 ≠ -1 := by
  induction rest with
  | nil =>
    intro p_idx st h
    simpa [find_most_related_para_loop] using h
  | cons para rest ih =>
    intro p_idx st h
    rw [find_most_related_para_loop]
    refine ih (p_idx + 1) _ ?_
    dsimp only
    split_ifs with h1 h2
    · dsimp only; omega
    · exact h
    · exact h

theorem fmrp_loop_from_init {segmented_answers : List (List Token)}
    (hans : segmented_answers ≠ []) (rest : List (List Token)) :
    ∀ (p_idx : Nat), (∃ p ∈ rest, p.length < 999999) →
      (find_most_related_para_loop segmented_answers p_idx rest
        (-1, 999999, 0)).1 ≠ -1 := by
  induction rest with
  | nil =>
    rintro p_idx ⟨p, hp, -⟩
    cases hp
  | cons para rest ih =>
    rintro p_idx ⟨p, hp, hplen⟩
    rw [find_most_related_para_loop]
    have hl : segmented_answers.length > 0 := List.length_pos.mpr hans
    rcases (metric_max_nonneg recall' para segmented_answers).lt_or_eq with hpos | hzero
    · refine fmrp_loop_ne_neg_one _ _ _ _ ?_
      dsimp only
      rw [if_pos hl, if_pos (Or.inl hpos)]
      dsimp only; omega
    · by_cases hshort : para.length < 999999
      · refine fmrp_loop_ne_neg_one _ _ _ _ ?_
        dsimp only
        rw [if_pos hl, if_pos (Or.inr ⟨hzero.symm, hshort⟩)]
        dsimp only; omega
      · have hnocond : ¬(metric_max_over_ground_truths recall' para segmented_answers >
            ((-1 : Int), (999999 : Nat), (0 : ℚ)).2.2 ∨
            (metric_max_over_ground_truths recall' para segmented_answers =
              ((-1 : Int), (999999 : Nat), (0 : ℚ)).2.2 ∧
             para.length < ((-1 : Int), (999999 : Nat), (0 : ℚ)).2.1)) := by
          dsimp only
          rw [← hzero]
          push_neg
          exact ⟨le_refl 0, fun _ => Nat.le_of_not_lt hshort⟩
        dsimp only
        rw [if_pos hl, if_neg hnocond]
        refine ih (p_idx + 1) ⟨p, ?_, hplen⟩
        rcases List.mem_cons.mp hp with hc | hc
        · exact absurd (hc ▸ hplen) hshort
        · exact hc

theorem fmrp_loop_fst_bound (segmented_answers : List (List Token))
    (rest : List (List Token)) :
    ∀ (p_idx : Nat) (st : Int × Nat × ℚ),
      (st.1 = -1 ∨ (0 ≤ st.1 ∧ st.1.toNat < p_idx)) →
      ((find_most_related_para_loop segmented_answers p_idx rest st).1 = -1 ∨
        (0 ≤ (find_most_related_para_loop segmented_answers p_idx rest st).1 ∧
         (find_most_related_para_loop segmented_answers p_idx rest st).1.toNat <
           p_idx + rest.length)) := by
  induction rest with
  | nil =>
    intro p_idx st h
    simpa [find_most_related_para_loop] using h
  | cons para rest ih =>
    intro p_idx st h
    rw [find_most_related_para_loop]
    have hst' : ∀ st' : Int × Nat × ℚ,
        (st'.1 = -1 ∨ (0 ≤ st'.1 ∧ st'.1.toNat < p_idx + 1)) →
        ((find_most_related_para_loop segmented_answers (p_idx + 1) rest st').1 = -1 ∨
          (0 ≤ (find_most_related_para_loop segmented_answers (p_idx + 1) rest st').1 ∧
           (find_most_related_para_loop segmented_answers (p_idx + 1) rest st').1.toNat <
             p_idx + (para :: rest).length)) := by
      intro st' h'
      rcases ih (p_idx + 1) st' h' with hc | ⟨hc1, hc2⟩
      · exact Or.inl hc
      · exact Or.inr ⟨hc1, by simpa [Nat.add_assoc, Nat.add_comm 1 rest.length] using hc2⟩
    refine hst' _ ?_
    dsimp only
    split_ifs with h1 h2
    · dsimp only
      refine Or.inr ⟨Int.natCast_nonneg p_idx, ?_⟩
      omega
    · rcases h with hc | ⟨hc1, hc2⟩
      · exact Or.inl hc
      · exact Or.inr ⟨hc1, Nat.lt_succ_of_lt hc2⟩
    · rcases h with hc | ⟨hc1, hc2⟩
      · exact Or.inl hc
      · exact Or.inr ⟨hc1, Nat.lt_succ_of_lt hc2⟩

theorem find_most_related_para_valid (segmented_answers paragraphs : List (List Token)) :
    find_most_related_para segmented_answers paragraphs = -1 ∨
      (0 ≤ find_most_related_para segmented_answers paragraphs ∧
       (find_most_related_para segmented_answers paragraphs).toNat < paragraphs.length) := by
  have h := fmrp_loop_fst_bound segmented_answers paragraphs 0 (-1, 999999, 0)
    (Or.inl rfl)
  simpa [find_most_related_para] using h

/-! Facts about the phase-B span search of `find_fake_answer`. -/

theorem span_score_le_one (segmented_answers : List (List Token)) (span_tokens : List Token) :
    (if segmented_answers.length > 0 then
      metric_max_over_ground_truths f1_score span_tokens segmented_answers
    else 0) ≤ (1 : ℚ) := by
  split_ifs
  · exact metric_max_f1_le_one _ _
  · norm_num

theorem spanEndLoop_absorb (segmented_answers : List (List Token)) (window : List Token)
    (d_idx start_tidx : Nat) :
    ∀ (count : Nat) (best : Best), 1 ≤ best.best_match_score →
      spanEndLoop segmented_answers window d_idx start_tidx count best = best := by
  intro count
  induction count with
  | zero => intro best _; rfl
  | succ k ih =>
    intro best h
    simp only [spanEndLoop]
    by_cases h0 : (if segmented_answers.length > 0 then
        metric_max_over_ground_truths f1_score
          ((window.drop start_tidx).take (k + 1)) segmented_answers
      else 0) = (0 : ℚ)
    · rw [if_pos h0]
    · rw [if_neg h0,
        if_neg (not_lt.mpr (le_trans (span_score_le_one segmented_answers _) h))]
      exact ih best h

theorem spanStartLoop_absorb (segmented_answers : List (List Token))
    (ans_tokens : Finset Token) (window : List Token) (d_idx : Nat)
    (toks : List Token) :
    ∀ (start_tidx : Nat) (best : Best), 1 ≤ best.best_match_score →
      spanStartLoop segmented_answers ans_tokens window d_idx start_tidx toks best = best := by
  induction toks with
  | nil => intro start_tidx best _; rfl
  | cons t rest ih =>
    intro start_tidx best h
    simp only [spanStartLoop]
    by_cases hmem : t ∈ ans_tokens
    · rw [if_pos hmem, spanEndLoop_absorb segmented_answers window d_idx start_tidx _ best h]
      exact ih (start_tidx + 1) best h
    · rw [if_neg hmem]
      exact ih (start_tidx + 1) best h

theorem spanStartLoop_no_tokens (segmented_answers : List (List Token))
    (ans_tokens : Finset Token) (window : List Token) (d_idx : Nat)
    (toks : List Token) :
    ∀ (start_tidx : Nat) (best : Best), (∀ t ∈ toks, t ∉ ans_tokens) →
      spanStartLoop segmented_answers ans_tokens window d_idx start_tidx toks best = best := by
  induction toks with
  | nil => intro start_tidx best _; rfl
  | cons t rest ih =>
    intro start_tidx best h
    simp only [spanStartLoop]
    rw [if_neg (h t (List.mem_cons_self t rest))]
    exact ih (start_tidx + 1) best fun x hx => h x (List.mem_cons_of_mem t hx)

/-! Facts about the phase-B document loop of `find_fake_answer`. -/

theorem coerce_doc_paragraphs (doc : Document) :
    (coerce_doc doc).segmented_paragraphs = doc.segmented_paragraphs := by
  rw [coerce_doc]
  split_ifs <;> rfl

theorem coerce_doc_selected (doc : Document) :
    (coerce_doc doc).is_selected = doc.is_selected := by
  rw [coerce_doc]
  split_ifs <;> rfl

theorem coerce_doc_valid {doc : Document}
    (hval : doc.most_related_para = -1 ∨
      (0 ≤ doc.most_related_para ∧
       doc.most_related_para.toNat < doc.segmented_paragraphs.length))
    (hidx : (coerce_doc doc).most_related_para.toNat <
      (coerce_doc doc).segmented_paragraphs.length) :
    0 ≤ (coerce_doc doc).most_related_para ∧
      (coerce_doc doc).most_related_para.toNat <
        (coerce_doc doc).segmented_paragraphs.length := by
  refine ⟨?_, hidx⟩
  rw [coerce_doc]
  split_ifs with hm
  · exact le_refl 0
  · rcases hval with hc | ⟨hc, -⟩
    · exact absurd hc hm
    · exact hc

theorem coerce_doc_idx_lt {doc : Document}
    (hne : doc.segmented_paragraphs ≠ [])
    (hval : doc.most_related_para = -1 ∨
      (0 ≤ doc.most_related_para ∧
       doc.most_related_para.toNat < doc.segmented_paragraphs.length)) :
    (coerce_doc doc).most_related_para.toNat <
      (coerce_doc doc).segmented_paragraphs.length := by
  rw [coerce_doc]
  split_ifs with hm
  · simpa using List.length_pos.mpr hne
  · rcases hval with hc | ⟨-, hc⟩
    · exact absurd hc hm
    · exact hc

theorem phaseBLoop_isSome (segmented_answers : List (List Token))
    (ans_tokens : Finset Token) (rest : List Document) :
    ∀ (d_idx : Nat) (acc : List Document) (best : Best),
      (∀ d ∈ rest, d.is_selected = true →
        d.segmented_paragraphs ≠ [] ∧
        (d.most_related_para = -1 ∨
          (0 ≤ d.most_related_para ∧
           d.most_related_para.toNat < d.segmented_paragraphs.length))) →
      (phaseBLoop segmented_answers ans_tokens d_idx rest (acc, best)).isSome := by
  induction rest with
  | nil =>
    intro d_idx acc best _
    rw [phaseBLoop]
    rfl
  | cons doc rest ih =>
    intro d_idx acc best h
    simp only [phaseBLoop]
    by_cases hsel : doc.is_selected = true
    · rw [if_pos hsel]
      obtain ⟨hne, hval⟩ := h doc (List.mem_cons_self doc rest) hsel
      have hidx := coerce_doc_idx_lt hne hval
      rw [List.get?_eq_get hidx]
      exact ih (d_idx + 1) _ _ fun d hd => h d (List.mem_cons_of_mem doc hd)
    · rw [if_neg hsel]
      exact ih (d_idx + 1) _ best fun d hd => h d (List.mem_cons_of_mem doc hd)

theorem phaseBLoop_skip (segmented_answers : List (List Token))
    (ans_tokens : Finset Token) (rest : List Document) :
    ∀ (d_idx : Nat) (acc : List Document) (best : Best),
      (∀ d ∈ rest, d.is_selected = false) →
      phaseBLoop segmented_answers ans_tokens d_idx rest (acc, best) =
        some (acc ++ rest, best) := by
  induction rest with
  | nil =>
    intro d_idx acc best _
    rw [phaseBLoop]
    simp
  | cons doc rest ih =>
    intro d_idx acc best h
    simp only [phaseBLoop]
    have hsel : doc.is_selected = false := h doc (List.mem_cons_self doc rest)
    rw [if_neg (by simp [hsel]),
      ih (d_idx + 1) (acc ++ [doc]) best fun d hd => h d (List.mem_cons_of_mem doc hd)]
    simp

theorem phaseBLoop_best_const (segmented_answers : List (List Token))
    (ans_tokens : Finset Token) (rest : List Document) :
    ∀ (d_idx : Nat) (acc : List Document) (best : Best) (out : List Document × Best),
      (∀ d ∈ rest, d.is_selected = true →
        ∀ t ∈ (((coerce_doc d).segmented_paragraphs.getD
            (coerce_doc d).most_related_para.toNat []).take 1000),
          t ∉ ans_tokens) →
      phaseBLoop segmented_answers ans_tokens d_idx rest (acc, best) = some out →
      out.2 = best := by
  induction rest with
  | nil =>
    intro d_idx acc best out _ heq
    rw [phaseBLoop, Option.some.injEq] at heq
    rw [← heq]
  | cons doc rest ih =>
    intro d_idx acc best out h heq
    simp only [phaseBLoop] at heq
    by_cases hsel : doc.is_selected = true
    · rw [if_pos hsel] at heq
      cases hg : (coerce_doc doc).segmented_paragraphs.get?
          (coerce_doc doc).most_related_para.toNat with
      | none =>
        rw [hg] at heq
        exact absurd heq (by simp)
      | some para =>
        rw [hg] at heq
        dsimp only at heq
        have hw : ∀ t ∈ para.take 1000, t ∉ ans_tokens := by
          have hd := h doc (List.mem_cons_self doc rest) hsel
          rwa [List.getD_eq_getElem?_getD, ← List.get?_eq_getElem?, hg, Option.getD_some] at hd
        rw [spanStartLoop_no_tokens segmented_answers ans_tokens (para.take 1000) d_idx
          (para.take 1000) 0 best hw] at heq
        exact ih (d_idx + 1) _ best out (fun d hd => h d (List.mem_cons_of_mem doc hd)) heq
    · rw [if_neg hsel] at heq
      exact ih (d_idx + 1) _ best out (fun d hd => h d (List.mem_cons_of_mem doc hd)) heq

theorem phaseBLoop_docs_inv (segmented_answers : List (List Token))
    (ans_tokens : Finset Token) (rest : List Document) :
    ∀ (d_idx : Nat) (acc : List Document) (best : Best) (out : List Document × Best),
      phaseBLoop segmented_answers ans_tokens d_idx rest (acc, best) = some out →
      (∀ d ∈ acc, d.most_related_para = -1 ∨
        (0 ≤ d.most_related_para ∧
         d.most_related_para.toNat < d.segmented_paragraphs.length)) →
      (∀ d ∈ rest, d.most_related_para = -1 ∨
        (0 ≤ d.most_related_para ∧
         d.most_related_para.toNat < d.segmented_paragraphs.length)) →
      ∀ d ∈ out.1, d.most_related_para = -1 ∨
        (0 ≤ d.most_related_para ∧
         d.most_related_para.toNat < d.segmented_paragraphs.length) := by
  induction rest with
  | nil =>
    intro d_idx acc best out heq hacc _
    rw [phaseBLoop, Option.some.injEq] at heq
    rw [← heq]
    exact hacc
  | cons doc rest ih =>
    intro d_idx acc best out heq hacc hrest
    simp only [phaseBLoop] at heq
    by_cases hsel : doc.is_selected = true
    · rw [if_pos hsel] at heq
      cases hg : (coerce_doc doc).segmented_paragraphs.get?
          (coerce_doc doc).most_related_para.toNat with
      | none =>
        rw [hg] at heq
        exact absurd heq (by simp)
      | some para =>
        rw [hg] at heq
        dsimp only at heq
        have hidx : (coerce_doc doc).most_related_para.toNat <
            (coerce_doc doc).segmented_paragraphs.length := by
          rcases List.get?_eq_some.mp hg with ⟨hlt, -⟩
          exact hlt
        have hcd := coerce_doc_valid (hrest doc (List.mem_cons_self doc rest)) hidx
        refine ih (d_idx + 1) _ _ out heq ?_
          (fun d hd => hrest d (List.mem_cons_of_mem doc hd))
        intro d hd
        rcases List.mem_append.mp hd with hd' | hd'
        · exact hacc d hd'
        · rw [List.mem_singleton.mp hd']
          exact Or.inr hcd
    · rw [if_neg hsel] at heq
      refine ih (d_idx + 1) _ _ out heq ?_
        (fun d hd => hrest d (List.mem_cons_of_mem doc hd))
      intro d hd
      rcases List.mem_append.mp hd with hd' | hd'
      · exact hacc d hd'
      · rw [List.mem_singleton.mp hd']
        exact hrest doc (List.mem_cons_self doc rest)

/-! Facts about `annotate_doc`, `answer_tokens_set` and `find_fake_answer`
as a whole. -/

theorem annotate_doc_selected (segmented_answers : List (List Token)) (doc : Document) :
    (annotate_doc segmented_answers doc).is_selected = doc.is_selected := rfl

theorem annotate_doc_paragraphs (segmented_answers : List (List Token)) (doc : Document) :
    (annotate_doc segmented_answers doc).segmented_paragraphs = doc.segmented_paragraphs := rfl

theorem annotate_doc_valid (segmented_answers : List (List Token)) (doc : Document) :
    (annotate_doc segmented_answers doc).most_related_para = -1 ∨
      (0 ≤ (annotate_doc segmented_answers doc).most_related_para ∧
       (annotate_doc segmented_answers doc).most_related_para.toNat <
         (annotate_doc segmented_answers doc).segmented_paragraphs.length) :=
  find_most_related_para_valid segmented_answers doc.segmented_paragraphs

theorem foldl_union_mono {t : Token} {acc : Finset Token} (l : List (List Token))
    (h : t ∈ acc) :
    t ∈ l.foldl (fun acc segmented_answer => acc ∪ segmented_answer.toFinset) acc := by
  induction l generalizing acc with
  | nil => exact h
  | cons b rest ih => exact ih (Finset.mem_union_left _ h)

theorem mem_foldl_union {t : Token} {ans : List Token} (htok : t ∈ ans) :
    ∀ (l : List (List Token)) (acc : Finset Token), ans ∈ l →
      t ∈ l.foldl (fun acc segmented_answer => acc ∪ segmented_answer.toFinset) acc := by
  intro l
  induction l with
  | nil =>
    intro acc h
    cases h
  | cons b rest ih =>
    intro acc h
    rcases List.mem_cons.mp h with hc | hc
    · subst hc
      exact foldl_union_mono rest
        (Finset.mem_union_right _ (List.mem_toFinset.mpr htok))
    · exact ih _ hc

theorem mem_answer_tokens_set {t : Token} {ans : List Token}
    {segmented_answers : List (List Token)} (h1 : ans ∈ segmented_answers)
    (h2 : t ∈ ans) : t ∈ answer_tokens_set segmented_answers := by
  rw [answer_tokens_set]
  exact mem_foldl_union h2 segmented_answers ∅ h1

theorem find_fake_answer_of_none {s : Sample}
    (hB : phaseBLoop s.segmented_answers (answer_tokens_set s.segmented_answers) 0
      (s.documents.map (annotate_doc s.segmented_answers)) ([], initBest) = none) :
    find_fake_answer s = none := by
  simp only [find_fake_answer]
  rw [hB]

theorem find_fake_answer_of_neg {s : Sample} {out : List Document × Best}
    (hB : phaseBLoop s.segmented_answers (answer_tokens_set s.segmented_answers) 0
      (s.documents.map (annotate_doc s.segmented_answers)) ([], initBest) = some out)
    (hscore : ¬ out.2.best_match_score > 0) :
    find_fake_answer s = some { s with
      documents := out.1
      answer_docs := []
      answer_spans := []
      fake_answers := []
      match_scores := [] } := by
  obtain ⟨docs', best⟩ := out
  simp only [find_fake_answer]
  rw [hB]
  dsimp only at hscore ⊢
  rw [if_neg hscore]

theorem find_fake_answer_of_pos {s : Sample} {out : List Document × Best}
    (hB : phaseBLoop s.segmented_answers (answer_tokens_set s.segmented_answers) 0
      (s.documents.map (annotate_doc s.segmented_answers)) ([], initBest) = some out)
    (hscore : out.2.best_match_score > 0) :
    find_fake_answer s = some { s with
      documents := out.1
      answer_docs := [out.2.best_match_d_idx]
      answer_spans := [out.2.best_match_span]
      fake_answers := [out.2.best_fake_answer]
      match_scores := [out.2.best_match_score] } := by
  obtain ⟨docs', best⟩ := out
  simp only [find_fake_answer]
  rw [hB]
  dsimp only at hscore ⊢
  rw [if_pos hscore]

theorem phaseBLoop_append (segmented_answers : List (List Token))
    (ans_tokens : Finset Token) (l1 l2 : List Document) :
    ∀ (d_idx : Nat) (st : List Document × Best),
      phaseBLoop segmented_answers ans_tokens d_idx (l1 ++ l2) st =
        (phaseBLoop segmented_answers ans_tokens d_idx l1 st).bind
          (phaseBLoop segmented_answers ans_tokens (d_idx + l1.length) l2) := by
  induction l1 with
  | nil =>
    intro d_idx st
    rw [List.nil_append]
    rw [show phaseBLoop segmented_answers ans_tokens d_idx [] st = some st from rfl]
    rw [Option.some_bind]
    simp only [List.length_nil, Nat.add_zero]
  | cons doc rest ih =>
    intro d_idx st
    obtain ⟨acc, best⟩ := st
    rw [List.cons_append]
    simp only [phaseBLoop]
    have harith : d_idx + 1 + rest.length = d_idx + (doc :: rest).length := by
      simp only [List.length_cons]
      omega
    by_cases hsel : doc.is_selected = true
    · rw [if_pos hsel, if_pos hsel]
      cases hg : (coerce_doc doc).segmented_paragraphs.get?
          (coerce_doc doc).most_related_para.toNat with
      | none => rfl
      | some para =>
        dsimp only
        rw [ih (d_idx + 1) _, harith]
    · rw [if_neg hsel, if_neg hsel, ih (d_idx + 1) _, harith]

/-! The claims. -/

/-- C4: `find_best_question_match` on the literal scenario
`paragraphs = [["a","x"], ["b"], ["a"]]`, `question = ["a"]` returns
winner index 2: the later score-1 paragraph of length 1 displaces the
earlier score-1 winner of length 2 because it is strictly shorter. -/
theorem claim_C4 : find_best_question_match [["a", "x"], ["b"], ["a"]] ["a"] = 2 := by
  with_unfolding_all rfl

/-- C5: the f1 component of `precision_recall_f1 A B` is 0 iff the
multiset intersection of A and B is empty; when the overlap is non-zero,
f1 is strictly positive, the lengths of A and B are non-zero, and the
denominator `p + r` is non-zero. -/
theorem claim_C5 (A B : List Token) :
    ((precision_recall_f1 A B).2.2 = 0 ↔ (↑A ∩ ↑B : Multiset Token) = 0) ∧
    (num_same A B ≠ 0 →
      0 < (precision_recall_f1 A B).2.2 ∧ 0 < A.length ∧ 0 < B.length ∧
      (num_same A B : ℚ) / (A.length : ℚ) + (num_same A B : ℚ) / (B.length : ℚ) ≠ 0) := by
  constructor
  · rw [← num_same_eq_zero_iff]
    constructor
    · intro h
      by_contra hns
      exact absurd h (ne_of_gt (f1_score_pos hns))
    · intro h
      exact f1_score_of_zero h
  · intro h
    refine ⟨f1_score_pos h, length_pos_of_num_same_ne_left h,
      length_pos_of_num_same_ne_right h, ?_⟩
    have hA : (0 : ℚ) < (A.length : ℚ) := by
      exact_mod_cast length_pos_of_num_same_ne_left h
    have hB : (0 : ℚ) < (B.length : ℚ) := by
      exact_mod_cast length_pos_of_num_same_ne_right h
    have hns : (0 : ℚ) < (num_same A B : ℚ) := by
      exact_mod_cast Nat.pos_of_ne_zero h
    exact (add_pos (div_pos hns hA) (div_pos hns hB)).ne'

/-- Witness for C5 at `A = B = ["a"]`. -/
theorem claim_C5_witness : 0 < (precision_recall_f1 ["a"] ["a"]).2.2 :=
  ((claim_C5 ["a"] ["a"]).2 (by with_unfolding_all decide)).1

/-- C6: the f1 component of `precision_recall_f1` is symmetric in its two
arguments, even though precision and recall individually swap. -/
theorem claim_C6 (A B : List Token) : f1_score A B = f1_score B A := by
  by_cases h : num_same A B = 0
  · rw [f1_score_of_zero h, f1_score_of_zero (by rwa [num_same_comm])]
  · have h' : num_same B A ≠ 0 := by rw [num_same_comm B A]; exact h
    rw [f1_score, f1_score, precision_recall_f1_of_ne h, precision_recall_f1_of_ne h',
      num_same_comm B A]
    ring

/-- C2 counterexample: on a sample with empty `segmented_answers` and one
document (not selected), `find_fake_answer` completes and leaves that
document's `most_related_para` at -1 — it is not a valid index, contrary
to the claimed invariant. -/
theorem claim_C2_counterexample :
    (find_fake_answer ⟨[], [⟨[["a"]], false, -1⟩], [], [], [], []⟩).map
      (fun s => s.documents.map Document.most_related_para) = some [-1] := by
  with_unfolding_all rfl

/-- C2 amended: after `find_fake_answer` completes without fault, every
document's `most_related_para` is either -1 or a valid index into that
document's paragraphs.  It can be left at -1 (for instance for every
document of a sample with empty `segmented_answers`; only `is_selected`
documents later have -1 coerced to 0 during span search). -/
theorem claim_C2 (s s' : Sample) (h : find_fake_answer s = some s') :
    ∀ d ∈ s'.documents, d.most_related_para = -1 ∨
      (0 ≤ d.most_related_para ∧
       d.most_related_para.toNat < d.segmented_paragraphs.length) := by
  cases hB : phaseBLoop s.segmented_answers (answer_tokens_set s.segmented_answers) 0
      (s.documents.map (annotate_doc s.segmented_answers)) ([], initBest) with
  | none =>
    rw [find_fake_answer_of_none hB] at h
    exact absurd h (by simp)
  | some out =>
    have hdocs := phaseBLoop_docs_inv s.segmented_answers
      (answer_tokens_set s.segmented_answers) _ 0 [] initBest out hB
      (by intro d hd; cases hd)
      (by
        intro d hd
        rcases List.mem_map.mp hd with ⟨d0, -, rfl⟩
        exact annotate_doc_valid s.segmented_answers d0)
    by_cases hscore : out.2.best_match_score > 0
    · rw [find_fake_answer_of_pos hB hscore, Option.some.injEq] at h
      intro d hd
      rw [← h] at hd
      exact hdocs d hd
    · rw [find_fake_answer_of_neg hB hscore, Option.some.injEq] at h
      intro d hd
      rw [← h] at hd
      exact hdocs d hd

/-- Witness for C2 on a concrete fully-annotated sample. -/
theorem claim_C2_witness :
    (⟨[["a"]], true, 0⟩ : Document).most_related_para = -1 ∨
      (0 ≤ (⟨[["a"]], true, 0⟩ : Document).most_related_para ∧
       (⟨[["a"]], true, 0⟩ : Document).most_related_para.toNat <
         (⟨[["a"]], true, 0⟩ : Document).segmented_paragraphs.length) :=
  claim_C2 ⟨[["a"]], [⟨[["a"]], true, -1⟩], [], [], [], []⟩
    ⟨[["a"]], [⟨[["a"]], true, 0⟩], [0], [[0, 0]], [some "a"], [1]⟩
    (by with_unfolding_all rfl)
    ⟨[["a"]], true, 0⟩ (by decide)

/-- C3 counterexample: an `is_selected` document with an empty paragraph
list: its `most_related_para` stays -1 in phase A, is coerced to 0, and
the access `segmented_paragraphs[0]` then fails (IndexError), modelled by
`find_fake_answer` returning `none` — the access does not succeed. -/
theorem claim_C3_counterexample :
    find_fake_answer ⟨[["a"]], [⟨[], true, -1⟩], [], [], [], []⟩ = none := by
  with_unfolding_all rfl

/-- C3 amended: the -1 coercion happens before span search, and the
subsequent paragraph access succeeds for every `is_selected` document
whose paragraph list is non-empty; on a selected document with zero
paragraphs the access raises instead. -/
theorem claim_C3 (s : Sample)
    (h : ∀ d ∈ s.documents, d.is_selected = true → d.segmented_paragraphs ≠ []) :
    (find_fake_answer s).isSome := by
  have hin : ∀ d ∈ s.documents.map (annotate_doc s.segmented_answers),
      d.is_selected = true → d.segmented_paragraphs ≠ [] ∧
        (d.most_related_para = -1 ∨
          (0 ≤ d.most_related_para ∧
           d.most_related_para.toNat < d.segmented_paragraphs.length)) := by
    intro d hd hdsel
    rcases List.mem_map.mp hd with ⟨d0, hd0, rfl⟩
    refine ⟨?_, annotate_doc_valid s.segmented_answers d0⟩
    rw [annotate_doc_paragraphs]
    exact h d0 hd0 (by rwa [annotate_doc_selected] at hdsel)
  have hsome := phaseBLoop_isSome s.segmented_answers
    (answer_tokens_set s.segmented_answers) _ 0 [] initBest hin
  cases hB : phaseBLoop s.segmented_answers (answer_tokens_set s.segmented_answers) 0
      (s.documents.map (annotate_doc s.segmented_answers)) ([], initBest) with
  | none =>
    rw [hB] at hsome
    exact absurd hsome (by simp)
  | some out =>
    by_cases hscore : out.2.best_match_score > 0
    · rw [find_fake_answer_of_pos hB hscore]
      rfl
    · rw [find_fake_answer_of_neg hB hscore]
      rfl

/-- Witness for C3 on a concrete selected document with two paragraphs. -/
theorem claim_C3_witness :
    (find_fake_answer ⟨[["a"]], [⟨[["b"], ["a"]], true, -1⟩], [], [], [], []⟩).isSome :=
  claim_C3 ⟨[["a"]], [⟨[["b"], ["a"]], true, -1⟩], [], [], [], []⟩ (by decide)

/-- C8: the span search only considers the first 1000 tokens of each
selected document's winning paragraph; if no token of any winning window
occurs in any gold answer — in particular when every occurrence of
gold-answer tokens lies at or beyond token index 1000 — no span is found
and all four annotation lists stay empty. -/
theorem claim_C8 (s s' : Sample) (h : find_fake_answer s = some s')
    (hwin : ∀ d ∈ s.documents, d.is_selected = true →
      ∀ t ∈ (((coerce_doc (annotate_doc s.segmented_answers d)).segmented_paragraphs.getD
          (coerce_doc (annotate_doc s.segmented_answers d)).most_related_para.toNat
          []).take 1000),
        t ∉ answer_tokens_set s.segmented_answers) :
    s'.match_scores = [] ∧ s'.answer_docs = [] ∧ s'.answer_spans = [] ∧
      s'.fake_answers = [] := by
  cases hB : phaseBLoop s.segmented_answers (answer_tokens_set s.segmented_answers) 0
      (s.documents.map (annotate_doc s.segmented_answers)) ([], initBest) with
  | none =>
    rw [find_fake_answer_of_none hB] at h
    exact absurd h (by simp)
  | some out =>
    have hbest : out.2 = initBest := by
      refine phaseBLoop_best_const s.segmented_answers
        (answer_tokens_set s.segmented_answers) _ 0 [] initBest out ?_ hB
      intro d hd hdsel t ht
      rcases List.mem_map.mp hd with ⟨d0, hd0, rfl⟩
      exact hwin d0 hd0 (by rwa [annotate_doc_selected] at hdsel) t ht
    have hscore : ¬ out.2.best_match_score > 0 := by
      rw [hbest]
      simp [initBest]
    rw [find_fake_answer_of_neg hB hscore, Option.some.injEq] at h
    rw [← h]
    exact ⟨rfl, rfl, rfl, rfl⟩

/-- Witness for C8: a selected document whose winning window shares no
token with the gold answers. -/
theorem claim_C8_witness :
    (⟨[["a"]], [⟨[["b"]], true, 0⟩], [], [], [], []⟩ : Sample).match_scores = [] ∧
    (⟨[["a"]], [⟨[["b"]], true, 0⟩], [], [], [], []⟩ : Sample).answer_docs = [] ∧
    (⟨[["a"]], [⟨[["b"]], true, 0⟩], [], [], [], []⟩ : Sample).answer_spans = [] ∧
    (⟨[["a"]], [⟨[["b"]], true, 0⟩], [], [], [], []⟩ : Sample).fake_answers = [] :=
  claim_C8 ⟨[["a"]], [⟨[["b"]], true, -1⟩], [], [], [], []⟩
    ⟨[["a"]], [⟨[["b"]], true, 0⟩], [], [], [], []⟩
    (by with_unfolding_all rfl)
    (by with_unfolding_all decide)

/-- C9 counterexample: a sample with empty `segmented_answers` and one
selected document with zero paragraphs does not return without error:
the coerced paragraph access raises (modelled by `none`). -/
theorem claim_C9_counterexample :
    find_fake_answer ⟨[], [⟨[], true, -1⟩], [], [], [], []⟩ = none := by
  with_unfolding_all rfl

/-- C9 amended: on a sample with empty `segmented_answers` or with no
`is_selected` documents, provided every selected document has a
non-empty paragraph list, `find_fake_answer` returns without error and
all four annotation lists are empty.  (A selected document with zero
paragraphs makes the paragraph access raise instead.) -/
theorem claim_C9 (s : Sample)
    (h1 : s.segmented_answers = [] ∨ ∀ d ∈ s.documents, d.is_selected = false)
    (h2 : ∀ d ∈ s.documents, d.is_selected = true → d.segmented_paragraphs ≠ []) :
    (find_fake_answer s).map Sample.answer_docs = some [] ∧
    (find_fake_answer s).map Sample.answer_spans = some [] ∧
    (find_fake_answer s).map Sample.fake_answers = some [] ∧
    (find_fake_answer s).map Sample.match_scores = some [] := by
  rcases h1 with hans | hnosel
  · have hin : ∀ d ∈ s.documents.map (annotate_doc s.segmented_answers),
        d.is_selected = true → d.segmented_paragraphs ≠ [] ∧
          (d.most_related_para = -1 ∨
            (0 ≤ d.most_related_para ∧
             d.most_related_para.toNat < d.segmented_paragraphs.length)) := by
      intro d hd hdsel
      rcases List.mem_map.mp hd with ⟨d0, hd0, rfl⟩
      refine ⟨?_, annotate_doc_valid s.segmented_answers d0⟩
      rw [annotate_doc_paragraphs]
      exact h2 d0 hd0 (by rwa [annotate_doc_selected] at hdsel)
    have hsome := phaseBLoop_isSome s.segmented_answers
      (answer_tokens_set s.segmented_answers) _ 0 [] initBest hin
    cases hB : phaseBLoop s.segmented_answers (answer_tokens_set s.segmented_answers) 0
        (s.documents.map (annotate_doc s.segmented_answers)) ([], initBest) with
    | none =>
      rw [hB] at hsome
      exact absurd hsome (by simp)
    | some out =>
      have hTempty : answer_tokens_set s.segmented_answers = ∅ := by
        rw [hans]
        rfl
      have hbest : out.2 = initBest := by
        refine phaseBLoop_best_const s.segmented_answers
          (answer_tokens_set s.segmented_answers) _ 0 [] initBest out ?_ hB
        intro d hd hdsel t ht
        rw [hTempty]
        exact Finset.not_mem_empty t
      have hscore : ¬ out.2.best_match_score > 0 := by
        rw [hbest]
        simp [initBest]
      rw [find_fake_answer_of_neg hB hscore]
      simp
  · have hB := phaseBLoop_skip s.segmented_answers
      (answer_tokens_set s.segmented_answers)
      (s.documents.map (annotate_doc s.segmented_answers)) 0 [] initBest
      (by
        intro d hd
        rcases List.mem_map.mp hd with ⟨d0, hd0, rfl⟩
        rw [annotate_doc_selected]
        exact hnosel d0 hd0)
    have hscore : ¬ (([] ++ s.documents.map (annotate_doc s.segmented_answers),
        initBest) : List Document × Best).2.best_match_score > 0 := by
      simp [initBest]
    rw [find_fake_answer_of_neg hB hscore]
    simp

/-- Witness for C9 on a concrete sample with empty gold answers. -/
theorem claim_C9_witness :
    (find_fake_answer ⟨[], [⟨[["a"]], true, -1⟩], [], [], [], []⟩).map
        Sample.answer_docs = some [] ∧
    (find_fake_answer ⟨[], [⟨[["a"]], true, -1⟩], [], [], [], []⟩).map
        Sample.answer_spans = some [] ∧
    (find_fake_answer ⟨[], [⟨[["a"]], true, -1⟩], [], [], [], []⟩).map
        Sample.fake_answers = some [] ∧
    (find_fake_answer ⟨[], [⟨[["a"]], true, -1⟩], [], [], [], []⟩).map
        Sample.match_scores = some [] :=
  claim_C9 ⟨[], [⟨[["a"]], true, -1⟩], [], [], [], []⟩ (Or.inl rfl) (by decide)

/-- C1 counterexample: in phase A of `find_fake_answer`, a paragraph whose
score against the gold answers is 0 still becomes the running best (its
length 1 beats the 999999 length floor), so `most_related_para` is set to
0, not left at -1 as the claim states. -/
theorem claim_C1_counterexample :
    metric_max_over_ground_truths recall' ["b"] [["a"]] = 0 ∧
    find_most_related_para [["a"]] [["b"]] = 0 := by
  constructor
  · with_unfolding_all rfl
  · with_unfolding_all rfl

/-- C1 amended: phase A of `find_fake_answer` initialises
`most_related_para_len` to 999999 (not 0 as in `find_best_question_match`),
so on equal score a strictly shorter paragraph displaces the running best
even at score 0; consequently, whenever `segmented_answers` is non-empty
and some paragraph has fewer than 999999 tokens — in particular for every
document whose paragraphs all score 0 but include one shorter than 999999
tokens — `most_related_para` is written with a real paragraph index and is
not left at -1. -/
theorem claim_C1 (segmented_answers paragraphs : List (List Token))
    (hans : segmented_answers ≠ [])
    (hpara : ∃ p ∈ paragraphs, p.length < 999999) :
    find_most_related_para segmented_answers paragraphs ≠ -1 :=
  fmrp_loop_from_init hans paragraphs 0 hpara

/-- Witness for C1 at a concrete zero-score document. -/
theorem claim_C1_witness : find_most_related_para [["x"]] [["y"], ["z", "w"]] ≠ -1 :=
  claim_C1 [["x"]] [["y"], ["z", "w"]] (by decide)
    ⟨["y"], by decide, by decide⟩

/-- The first span examined for a selected document whose window is
exactly a non-empty gold answer is the whole window, which scores F1 = 1
and immediately becomes the global best; no later span can strictly
exceed 1, so the span search returns exactly that record. -/
theorem spanStartLoop_exact (segmented_answers : List (List Token))
    (ans_tokens : Finset Token) (t : Token) (rest : List Token) (d_idx : Nat)
    (hmem : (t :: rest) ∈ segmented_answers)
    (hT : t ∈ ans_tokens) :
    spanStartLoop segmented_answers ans_tokens (t :: rest) d_idx 0 (t :: rest) initBest =
      ⟨1, (d_idx : Int), [(0 : Int), (rest.length : Int)],
       some (String.join (t :: rest))⟩ := by
  have hans_ne : segmented_answers.length > 0 :=
    List.length_pos.mpr (by rintro rfl; cases hmem)
  have hspan : ((t :: rest).drop 0).take ((t :: rest).length - 0) = t :: rest := by
    rw [List.drop_zero, Nat.sub_zero, List.take_length]
  have hcount : (t :: rest).length - 0 = rest.length + 1 := by
    rw [Nat.sub_zero, List.length_cons]
  have hscore : (if segmented_answers.length > 0 then
      metric_max_over_ground_truths f1_score (t :: rest) segmented_answers
    else 0) = 1 := by
    rw [if_pos hans_ne, metric_max_f1_eq_one hmem (List.cons_ne_nil t rest)]
  simp only [spanStartLoop]
  rw [if_pos hT]
  rw [hcount] at hspan
  rw [hcount]
  simp only [spanEndLoop]
  rw [List.drop_zero] at hspan ⊢
  rw [hspan, hscore]
  rw [if_neg (by norm_num : ¬(1 : ℚ) = 0)]
  rw [if_pos (show (1 : ℚ) > initBest.best_match_score by norm_num [initBest])]
  rw [spanEndLoop_absorb segmented_answers (t :: rest) d_idx 0 rest.length _
    (by norm_num)]
  rw [spanStartLoop_absorb segmented_answers ans_tokens (t :: rest) d_idx rest 1 _
    (by norm_num)]
  norm_num

/-- C7 counterexample: the sole selected document's winning paragraph is
the empty token sequence, which is exactly equal to the gold answer `[]`,
yet `match_scores` ends up empty, not `[1.0]` — the claim fails for empty
token sequences (and similarly, with `f1 < 1`, for paragraphs longer than
the 1000-token window). -/
theorem claim_C7_counterexample :
    (coerce_doc (annotate_doc [[]] ⟨[[]], true, -1⟩)).segmented_paragraphs.get?
        (coerce_doc (annotate_doc [[]] ⟨[[]], true, -1⟩)).most_related_para.toNat =
      some ([] : List Token) ∧
    ([] : List Token) ∈ ([[]] : List (List Token)) ∧
    (find_fake_answer ⟨[[]], [⟨[[]], true, -1⟩], [], [], [], []⟩).map
      Sample.match_scores = some [] := by
  refine ⟨?_, ?_, ?_⟩
  · with_unfolding_all rfl
  · exact List.mem_singleton.mpr rfl
  · with_unfolding_all rfl

/-- C7 amended: on a sample with exactly one `is_selected` document whose
most-related paragraph (after coercion) is exactly equal to one gold
answer's token sequence, provided that paragraph is non-empty and fits
the 1000-token window, `find_fake_answer` produces `match_scores = [1.0]`
and `fake_answers = [concatenation of that paragraph's tokens]`. -/
theorem claim_C7 (s : Sample) (pre post : List Document) (d : Document)
    (para : List Token)
    (hdocs : s.documents = pre ++ d :: post)
    (hpre : ∀ d' ∈ pre, d'.is_selected = false)
    (hpost : ∀ d' ∈ post, d'.is_selected = false)
    (hsel : d.is_selected = true)
    (hpara : (coerce_doc (annotate_doc s.segmented_answers d)).segmented_paragraphs.get?
        (coerce_doc (annotate_doc s.segmented_answers d)).most_related_para.toNat =
      some para)
    (hmem : para ∈ s.segmented_answers)
    (hne : para ≠ [])
    (hlen : para.length ≤ 1000) :
    (find_fake_answer s).map Sample.match_scores = some [1] ∧
    (find_fake_answer s).map Sample.fake_answers =
      some [some (String.join para)] := by
  obtain ⟨t, rest, rfl⟩ : ∃ t rest, para = t :: rest := by
    cases para with
    | nil => exact absurd rfl hne
    | cons t rest => exact ⟨t, rest, rfl⟩
  have hmap : s.documents.map (annotate_doc s.segmented_answers) =
      pre.map (annotate_doc s.segmented_answers) ++
        annotate_doc s.segmented_answers d ::
          post.map (annotate_doc s.segmented_answers) := by
    rw [hdocs, List.map_append, List.map_cons]
  have hskip_pre := phaseBLoop_skip s.segmented_answers
    (answer_tokens_set s.segmented_answers)
    (pre.map (annotate_doc s.segmented_answers)) 0 [] initBest
    (by
      intro d' hd'
      rcases List.mem_map.mp hd' with ⟨d0, hd0, rfl⟩
      rw [annotate_doc_selected]
      exact hpre d0 hd0)
  have hT_first : t ∈ answer_tokens_set s.segmented_answers :=
    mem_answer_tokens_set hmem (List.mem_cons_self t rest)
  have hwindow : (t :: rest).take 1000 = t :: rest := List.take_of_length_le hlen
  have hstart := spanStartLoop_exact s.segmented_answers
    (answer_tokens_set s.segmented_answers) t rest pre.length hmem hT_first
  have hstep : phaseBLoop s.segmented_answers (answer_tokens_set s.segmented_answers)
      pre.length
      (annotate_doc s.segmented_answers d ::
        post.map (annotate_doc s.segmented_answers))
      (pre.map (annotate_doc s.segmented_answers), initBest) =
      some ((pre.map (annotate_doc s.segmented_answers) ++
          [coerce_doc (annotate_doc s.segmented_answers d)]) ++
          post.map (annotate_doc s.segmented_answers),
        ⟨1, (pre.length : Int), [(0 : Int), (rest.length : Int)],
         some (String.join (t :: rest))⟩) := by
    simp only [phaseBLoop]
    rw [if_pos (show (annotate_doc s.segmented_answers d).is_selected = true by
      rw [annotate_doc_selected]; exact hsel)]
    rw [hpara]
    dsimp only
    rw [hwindow, hstart]
    exact phaseBLoop_skip s.segmented_answers (answer_tokens_set s.segmented_answers)
      (post.map (annotate_doc s.segmented_answers)) (pre.length + 1) _ _
      (by
        intro d' hd'
        rcases List.mem_map.mp hd' with ⟨d0, hd0, rfl⟩
        rw [annotate_doc_selected]
        exact hpost d0 hd0)
  have hB : phaseBLoop s.segmented_answers (answer_tokens_set s.segmented_answers) 0
      (s.documents.map (annotate_doc s.segmented_answers)) ([], initBest) =
      some ((pre.map (annotate_doc s.segmented_answers) ++
          [coerce_doc (annotate_doc s.segmented_answers d)]) ++
          post.map (annotate_doc s.segmented_answers),
        ⟨1, (pre.length : Int), [(0 : Int), (rest.length : Int)],
         some (String.join (t :: rest))⟩) := by
    rw [hmap, phaseBLoop_append, hskip_pre, Option.some_bind, List.nil_append,
      List.length_map, Nat.zero_add]
    exact hstep
  have hscore : ((pre.map (annotate_doc s.segmented_answers) ++
        [coerce_doc (annotate_doc s.segmented_answers d)]) ++
        post.map (annotate_doc s.segmented_answers),
      (⟨1, (pre.length : Int), [(0 : Int), (rest.length : Int)],
       some (String.join (t :: rest))⟩ : Best)).2.best_match_score > 0 := by
    norm_num
  rw [find_fake_answer_of_pos hB hscore]
  exact ⟨rfl, rfl⟩

/-- Witness for C7 on a concrete one-document sample whose paragraph
equals the gold answer. -/
theorem claim_C7_witness :
    (find_fake_answer ⟨[["a"]], [⟨[["a"]], true, -1⟩], [], [], [], []⟩).map
        Sample.match_scores = some [1] ∧
    (find_fake_answer ⟨[["a"]], [⟨[["a"]], true, -1⟩], [], [], [], []⟩).map
        Sample.fake_answers = some [some (String.join ["a"])] :=
  claim_C7 ⟨[["a"]], [⟨[["a"]], true, -1⟩], [], [], [], []⟩ [] []
    ⟨[["a"]], true, -1⟩ ["a"] rfl
    (by intro d' hd'; cases hd')
    (by intro d' hd'; cases hd')
    rfl (by with_unfolding_all rfl) (by decide) (by decide) (by decide)

/-- C10 counterexample: when the second completed task carries a worker
fault, the drain loop writes the first result, stops before the third,
and emits NO diagnostic at all — the middle component (diagnostics of the
drain loop) is empty, so no failing line number or raw record is
reported, contrary to the claim. -/
theorem claim_C10_counterexample :
    drainLoop [Except.ok ⟨[["q"]], [], [], [], [], []⟩,
        Except.error "worker fault",
        Except.ok ⟨[["r"]], [], [], [], [], []⟩] =
      ([⟨[["q"]], [], [], [], [], []⟩], [], some "worker fault") := by
  rfl

/-- C10 amended: when a worker task fails, the re-raised exception at
result-retrieval time terminates the drain loop — results completed
before the failure are written, later completions are not processed —
but nothing is reported: the drain loop emits no diagnostic (no line
number, no raw record; those are only logged for JSON decode failures at
load time). -/
theorem claim_C10 (written : List Sample) (e : String)
    (post : List (Except String Sample)) :
    drainLoop (written.map Except.ok ++ Except.error e :: post) =
      (written, [], some e) := by
  induction written with
  | nil => rfl
  | cons sample rest ih =>
    simp only [List.map_cons, List.cons_append, drainLoop, List.append_eq, ih]

end DuReaderPreprocess
